import Mathlib

/-!
Verification development for the perception pipeline of `src/main.py`
(`run_exp`).  The per-frame, per-object loop is embedded shallowly over
exact rationals: images become lists of pixels, the view matrices become
4x4 rational matrices, and the per-object processing becomes a total
function returning `Except` values in place of the Python skip paths.

External library calls whose exact numerics live outside the repository
are treated as follows:
* pinhole back-projection (`o3d PointCloud.create_from_rgbd_image`) is
  modelled by the standard pinhole formula the spec states for it;
* voxel downsampling plus statistical outlier removal
  (`voxel_down_sample` / `remove_statistical_outlier`, main.py 152-157)
  are a single explicit function parameter `F` returning `Except`,
  since the surrounding code catches their exceptions;
* oriented-bounding-box fitting (`get_oriented_bounding_box`,
  main.py 170-236) is an explicit function parameter `G` returning
  `Except`, since the surrounding code catches its exceptions;
* `np.linalg.inv` (main.py 73) fails exactly on a singular matrix,
  and the failure is not caught anywhere in `run_exp`.
-/

abbrev Vec3 := Fin 3 → ℚ

abbrev Mat3 := Matrix (Fin 3) (Fin 3) ℚ

abbrev Mat4 := Matrix (Fin 4) (Fin 4) ℚ

instance : DecidableEq Mat3 :=
  inferInstanceAs (DecidableEq (Fin 3 → Fin 3 → ℚ))

instance : DecidableEq Mat4 :=
  inferInstanceAs (DecidableEq (Fin 4 → Fin 4 → ℚ))

/-- Camera intrinsic parameters (main.py lines 31-36 and 76-83). -/
structure Intrinsics where
  width : ℕ
  height : ℕ
  fx : ℚ
  fy : ℚ
  cx : ℚ
  cy : ℚ
  deriving DecidableEq

/-- The Intrinsics Builder (main.py lines 31-36): reads fx, fy, cx, cy from
fixed positions of the 4x4 row-major projection matrix; width and height
are the fixed render resolution 640x480 (main.py line 32). -/
def buildIntrinsics (P : Mat4) : Intrinsics :=
  { width := 640, height := 480,
    fx := P 0 0, fy := P 1 1, cx := P 0 2, cy := P 1 2 }

/-- One pixel of a frame: pixel coordinates, RGB colour channels, depth,
and the segmentation id.  The three images of a frame (main.py line 69)
share one shape, so a frame is one list of pixels. -/
structure Pixel where
  u : ℚ
  v : ℚ
  rgb : Fin 3 → ℚ
  depth : ℚ
  segId : ℤ
  deriving DecidableEq

/-- A point of a reconstructed cloud: camera-frame position and colour. -/
abbrev CPoint := Vec3 × Vec3

abbrev Cloud := List CPoint

/-- Depth truncation used when building the RGBD image (main.py line 128). -/
def depthTrunc : ℚ := 1000

/-- Masking of one pixel for one object id (main.py lines 107, 119-121):
pixels outside the object's mask have colour and depth set to zero. -/
def maskPixel (id : ℤ) (p : Pixel) : Pixel :=
  if p.segId = id then p else { p with depth := 0, rgb := fun _ => 0 }

/-- Pinhole back-projection of one (masked) pixel (library call at
main.py line 133; formula as documented for it by the spec, section 4.4):
for a pixel (u, v) with depth d the camera-frame point is
((u - cx) * d / fx, (v - cy) * d / fy, d). -/
def backprojectPoint (intr : Intrinsics) (p : Pixel) : Vec3 :=
  ![(p.u - intr.cx) * p.depth / intr.fx,
    (p.v - intr.cy) * p.depth / intr.fy,
    p.depth]

/-- Cloud reconstruction for one object id (main.py lines 115-133):
mask the frame's pixels, drop pixels beyond the depth truncation, and
back-project the rest, carrying the colour through. -/
def backproject (intr : Intrinsics) (px : List Pixel) (id : ℤ) : Cloud :=
  ((px.map (maskPixel id)).filter (fun p => decide (p.depth ≤ depthTrunc))).map
    (fun p => (backprojectPoint intr p, p.rgb))

/-- Removal of points at the origin (main.py lines 139-142): these come
from the masked-out pixels.  Colours are filtered by the same mask. -/
def removeOrigin (c : Cloud) : Cloud :=
  c.filter (fun q => !decide (q.1 0 = 0 ∧ q.1 1 = 0 ∧ q.1 2 = 0))

/-- The reconstructed cloud of one object, after origin-point removal
(main.py lines 115-142). -/
def reconstructCloud (intr : Intrinsics) (px : List Pixel) (id : ℤ) : Cloud :=
  removeOrigin (backproject intr px id)

/-- Centroid of a cloud: arithmetic mean of the point positions
(main.py line 163). -/
def centroidOf (c : Cloud) : Vec3 :=
  fun i => (c.map (fun q => q.1 i)).sum / (c.length : ℚ)

/-- Appending 1.0 to a 3-vector (main.py lines 166, 196:
`np.append(v, 1.0)`). -/
def homog (p : Vec3) : Fin 4 → ℚ :=
  ![p 0, p 1, p 2, 1]

/-- Homogeneous transform of a 3-vector by a 4x4 matrix (main.py lines
166-167 and 196-198): append 1.0, multiply, take the first three
components. -/
def transformPos (M : Mat4) (p : Vec3) : Vec3 :=
  fun i => M.mulVec (homog p) (Fin.castSucc i)

/-- Top-left 3x3 block of a 4x4 matrix (main.py lines 175 and 234:
`stat_viewMat_inv[:3, :3]`). -/
def rot3 (M : Mat4) : Mat3 :=
  Matrix.of fun i j => M (Fin.castSucc i) (Fin.castSucc j)

/-- Per-point world transform of a list of cloud points, as done for the
visualization copy of the cloud (main.py lines 193-199). -/
def worldPoints (M : Mat4) (pts : List Vec3) : List Vec3 :=
  pts.map (fun q => transformPos M q)

/-- The world-position formula as the spec words it (section 4.7): the
first three components of the 4x4 matrix applied to [p; 1.0], written out
entrywise.  Stated from the spec, to be compared with `transformPos`. -/
def specWorldPos (M : Mat4) (p : Vec3) : Vec3 :=
  fun i =>
    M (Fin.castSucc i) 0 * p 0 + M (Fin.castSucc i) 1 * p 1 +
      M (Fin.castSucc i) 2 * p 2 + M (Fin.castSucc i) 3 * 1

/-- The world-rotation formula as the spec words it (section 4.7): the
top-left 3x3 block of the inverse view matrix left-multiplied into the
camera-frame rotation, written out entrywise.  Stated from the spec, to
be compared with `rot3 M * R`. -/
def specWorldRot (M : Mat4) (R : Mat3) : Mat3 :=
  Matrix.of fun i j =>
    M (Fin.castSucc i) (Fin.castSucc 0) * R 0 j +
      M (Fin.castSucc i) (Fin.castSucc 1) * R 1 j +
      M (Fin.castSucc i) (Fin.castSucc 2) * R 2 j

/-- Oriented bounding box data used by the pipeline: rotation matrix and
per-axis extents (main.py lines 171-172, 183). -/
structure OBB where
  R : Mat3
  extent : Vec3
  deriving DecidableEq

/-- One per-object pose record, mirroring the two dict literals at
main.py lines 178-184 (OBB success) and 230-236 (OBB fallback). -/
structure PoseRecord where
  position_camera : Vec3
  orientation_camera : Mat3
  position_world : Vec3
  orientation_world : Mat3
  dimensions : Option Vec3
  deriving DecidableEq

/-- The reasons an object is skipped inside the per-object loop.  The
first three are logged by the code (main.py lines 111, 146, 156); the
last one is the silent fall-through of the `len > 0` check at line 160,
which has no else branch and prints nothing. -/
inductive SkipReason where
  | emptyMask
  | insufficientPoints
  | filterFailed
  | emptyAfterFilter
  deriving DecidableEq

/-- The per-object body of the loop at main.py lines 100-236, for one
object id.  `F` is the downsample-plus-outlier-removal step (lines
152-157, exceptions caught and turned into a skip), `G` is the OBB
fitting step (lines 170-236, exceptions caught and turned into the
identity-orientation fallback record). -/
def processObject (F : Cloud → Except Unit Cloud) (G : Cloud → Except Unit OBB)
    (intr : Intrinsics) (Minv : Mat4) (px : List Pixel) (id : ℤ) :
    Except SkipReason PoseRecord :=
  if ∀ p ∈ px, p.segId ≠ id then .error .emptyMask
  else if (reconstructCloud intr px id).length < 10 then .error .insufficientPoints
  else
    match F (reconstructCloud intr px id) with
    | .error _ => .error .filterFailed
    | .ok fc =>
      if fc.length = 0 then .error .emptyAfterFilter
      else
        match G fc with
        | .ok obb =>
            .ok { position_camera := centroidOf fc,
                  orientation_camera := obb.R,
                  position_world := transformPos Minv (centroidOf fc),
                  orientation_world := rot3 Minv * obb.R,
                  dimensions := some obb.extent }
        | .error _ =>
            .ok { position_camera := centroidOf fc,
                  position_world := transformPos Minv (centroidOf fc),
                  orientation_camera := 1,
                  orientation_world := rot3 Minv * 1,
                  dimensions := none }

/-- The distinct segmentation ids of a frame (main.py line 86,
`np.unique`; `np.unique` sorts while `dedup` keeps first occurrences,
which does not affect the key set of the frame result). -/
def uniqueIds (px : List Pixel) : List ℤ :=
  (px.map Pixel.segId).dedup

/-- The ids the loop actually builds masks for: distinct ids greater
than zero (main.py lines 100-102). -/
def objectIds (px : List Pixel) : List ℤ :=
  (uniqueIds px).filter (fun id => decide (0 < id))

/-- Membership of a pixel in the boolean mask of an id
(main.py line 107: `mask = (seg_s == obj_id)`). -/
def inMask (id : ℤ) (p : Pixel) : Prop :=
  p.segId = id

/-- The Frame Result `timestep_object_poses` (main.py lines 90, 100-236):
the per-object loop over the distinct ids, skipping ids at most 0 and
objects whose processing hits a skip path. -/
def objectRecords (F : Cloud → Except Unit Cloud) (G : Cloud → Except Unit OBB)
    (intr : Intrinsics) (Minv : Mat4) (px : List Pixel) :
    List (ℤ × PoseRecord) :=
  (uniqueIds px).filterMap fun id =>
    if id ≤ 0 then none
    else
      match processObject F G intr Minv px id with
      | .ok r => some (id, r)
      | .error _ => none

/-- The key set of a frame result. -/
def recordKeys (l : List (ℤ × PoseRecord)) : List ℤ :=
  l.map Prod.fst

/-- Matrix inversion as `np.linalg.inv` behaves under exact arithmetic
(main.py line 73): defined exactly when the determinant is nonzero,
via the adjugate formula. -/
def invert4 (A : Mat4) : Option Mat4 :=
  if A.det = 0 then none else some (A.det⁻¹ • A.adjugate)

inductive FrameError where
  | singularViewMatrix
  deriving DecidableEq

/-- One frame of the perception pass (main.py lines 69-244): invert the
view matrix, then run the per-object loop.  A singular view matrix makes
`np.linalg.inv` raise, which no handler in `run_exp` catches. -/
def processFrame (F : Cloud → Except Unit Cloud) (G : Cloud → Except Unit OBB)
    (intr : Intrinsics) (frame : Mat4 × List Pixel) :
    Except FrameError (List (ℤ × PoseRecord)) :=
  match invert4 frame.1 with
  | none => .error .singularViewMatrix
  | some Minv => .ok (objectRecords F G intr Minv frame.2)

/-- The sequence of processed frames of a run (main.py lines 40-285):
frames are processed in order and an uncaught exception in one frame
propagates out of `run_exp`, so nothing at all is returned. -/
def runFrames (F : Cloud → Except Unit Cloud) (G : Cloud → Except Unit OBB)
    (intr : Intrinsics) :
    List (Mat4 × List Pixel) → Except FrameError (List (List (ℤ × PoseRecord)))
  | [] => .ok []
  | f :: rest =>
    match processFrame F G intr f with
    | .error e => .error e
    | .ok r =>
      match runFrames F G intr rest with
      | .error e => .error e
      | .ok rs => .ok (r :: rs)

/-- The rigid-view-matrix invariant of the spec's data model (section 3):
last row (0, 0, 0, 1) and an orthonormal rotation block. -/
def IsRigid (V : Mat4) : Prop :=
  (∀ j, V (Fin.last 3) j = if j = Fin.last 3 then 1 else 0) ∧
    Matrix.transpose (rot3 V) * rot3 V = 1

/-- Example intrinsics: unit focal lengths and zero principal point. -/
def intrEx : Intrinsics :=
  { width := 640, height := 480, fx := 1, fy := 1, cx := 0, cy := 0 }

/-- An object pixel of id 5 at column u, row 0, depth 2. -/
def pxObj (u : ℚ) : Pixel :=
  { u := u, v := 0, rgb := fun _ => 1, depth := 2, segId := 5 }

/-- A background pixel (id 0). -/
def pxBg (u v : ℚ) : Pixel :=
  { u := u, v := v, rgb := fun _ => 0, depth := 3, segId := 0 }

/-- A frame whose object 5 reconstructs to ten points. -/
def frameTen : List Pixel :=
  [pxObj 0, pxObj 1, pxObj 2, pxObj 3, pxObj 4, pxObj 5, pxObj 6, pxObj 7,
   pxObj 8, pxObj 9, pxBg 0 1, pxBg 1 1]

/-- A frame whose object 5 reconstructs to only four points. -/
def frameFour : List Pixel :=
  [pxObj 0, pxObj 1, pxObj 2, pxObj 3, pxBg 0 1, pxBg 1 1]

/-- The identity cloud filter (downsampling that keeps every point). -/
def idFilter : Cloud → Except Unit Cloud := fun c => .ok c

/-- A cloud filter that always fails numerically. -/
def failFilter : Cloud → Except Unit Cloud := fun _ => .error ()

/-- A cloud filter that succeeds with an empty cloud. -/
def emptyFilter : Cloud → Except Unit Cloud := fun _ => .ok []

/-- An OBB fitting step that always fails (degenerate point set). -/
def failOBB : Cloud → Except Unit OBB := fun _ => .error ()

/-- An OBB fitting step returning the identity box of unit extents. -/
def okOBB : Cloud → Except Unit OBB := fun _ => .ok { R := 1, extent := fun _ => 1 }

/-- The record produced for object 5 of `frameTen` with the identity
filter and the unit OBB step. -/
def recEx : PoseRecord :=
  { position_camera := centroidOf (reconstructCloud intrEx frameTen 5),
    orientation_camera := 1,
    position_world := transformPos 1 (centroidOf (reconstructCloud intrEx frameTen 5)),
    orientation_world := rot3 1 * 1,
    dimensions := some (fun _ => 1) }

/-- The fallback record produced for object 5 of `frameTen` when OBB
fitting fails. -/
def recFb : PoseRecord :=
  { position_camera := centroidOf (reconstructCloud intrEx frameTen 5),
    position_world := transformPos 1 (centroidOf (reconstructCloud intrEx frameTen 5)),
    orientation_camera := 1,
    orientation_world := rot3 1 * 1,
    dimensions := none }

lemma homog_castSucc (p : Vec3) (i : Fin 3) : homog p (Fin.castSucc i) = p i := by
  fin_cases i <;> rfl

lemma homog_last (p : Vec3) : homog p (Fin.last 3) = 1 := rfl

lemma mem_recordKeys_iff (F : Cloud → Except Unit Cloud) (G : Cloud → Except Unit OBB)
    (intr : Intrinsics) (M : Mat4) (px : List Pixel) (id : ℤ) :
    id ∈ recordKeys (objectRecords F G intr M px) ↔
      id ∈ uniqueIds px ∧ 0 < id ∧ ∃ r, processObject F G intr M px id = .ok r := by
  constructor
  · rintro h
    rcases List.mem_map.1 h with ⟨pair, hmem, hfst⟩
    rcases List.mem_filterMap.1 hmem with ⟨a, ha, hbody⟩
    by_cases hle : a ≤ 0
    · rw [if_pos hle] at hbody; exact absurd hbody (by simp)
    · rw [if_neg hle] at hbody
      rcases hpo : processObject F G intr M px a with e | r
      · rw [hpo] at hbody; exact absurd hbody (by simp)
      · rw [hpo] at hbody
        simp only [Option.some.injEq] at hbody
        subst hbody
        simp only at hfst
        subst hfst
        exact ⟨ha, by omega, r, hpo⟩
  · rintro ⟨hu, hpos, r, hr⟩
    refine List.mem_map.2 ⟨(id, r), List.mem_filterMap.2 ⟨id, hu, ?_⟩, rfl⟩
    rw [if_neg (by omega), hr]

lemma mem_uniqueIds_iff (px : List Pixel) (id : ℤ) :
    id ∈ uniqueIds px ↔ ∃ p ∈ px, p.segId = id := by
  simp [uniqueIds, List.mem_dedup, List.mem_map]

lemma invert4_mul (A M : Mat4) (h : invert4 A = some M) :
    A * M = 1 ∧ M * A = 1 := by
  unfold invert4 at h
  by_cases hd : A.det = 0
  · rw [if_pos hd] at h; exact absurd h (by simp)
  · rw [if_neg hd] at h
    simp only [Option.some.injEq] at h
    subst h
    constructor
    · rw [Matrix.mul_smul, Matrix.mul_adjugate, smul_smul,
        inv_mul_cancel₀ hd, one_smul]
    · rw [Matrix.smul_mul, Matrix.adjugate_mul, smul_smul,
        inv_mul_cancel₀ hd, one_smul]

lemma transformPos_eq_specWorldPos (M : Mat4) (p : Vec3) :
    transformPos M p = specWorldPos M p := by
  funext i
  simp only [transformPos, specWorldPos, Matrix.mulVec, Matrix.dotProduct,
    Fin.sum_univ_four]
  have h0 : homog p (0 : Fin 4) = p 0 := rfl
  have h1 : homog p (1 : Fin 4) = p 1 := rfl
  have h2 : homog p (2 : Fin 4) = p 2 := rfl
  have h3 : homog p (3 : Fin 4) = 1 := rfl
  rw [h0, h1, h2, h3]

lemma rot3_mul_eq_specWorldRot (M : Mat4) (R : Mat3) :
    rot3 M * R = specWorldRot M R := by
  funext i j
  simp only [Matrix.mul_apply, specWorldRot, rot3, Fin.sum_univ_three,
    Matrix.of_apply]

lemma processObject_ok_elim (F : Cloud → Except Unit Cloud) (G : Cloud → Except Unit OBB)
    (intr : Intrinsics) (M : Mat4) (px : List Pixel) (id : ℤ) (r : PoseRecord)
    (hr : processObject F G intr M px id = .ok r) :
    ∃ fc, F (reconstructCloud intr px id) = .ok fc ∧ fc ≠ [] ∧
      r.position_camera = centroidOf fc ∧
      r.position_world = transformPos M (centroidOf fc) ∧
      r.orientation_world = rot3 M * r.orientation_camera ∧
      (r.dimensions = none → r.orientation_camera = 1) := by
  unfold processObject at hr
  split at hr
  · exact absurd hr (by simp)
  · split at hr
    · exact absurd hr (by simp)
    · split at hr
      · exact absurd hr (by simp)
      · rename_i fc hF
        split at hr
        · exact absurd hr (by simp)
        · rename_i hlen
          refine ⟨fc, hF, fun hnil => hlen (by simp [hnil]), ?_⟩
          split at hr
          · rename_i obb hG
            simp only [Except.ok.injEq] at hr
            subst hr
            exact ⟨rfl, rfl, rfl, fun h => absurd h (by simp)⟩
          · rename_i e hG
            simp only [Except.ok.injEq] at hr
            subst hr
            exact ⟨rfl, rfl, rfl, fun _ => rfl⟩

lemma processObject_ok_exists_iff (F : Cloud → Except Unit Cloud)
    (G : Cloud → Except Unit OBB) (intr : Intrinsics) (M : Mat4)
    (px : List Pixel) (id : ℤ) (hm : ∃ p ∈ px, p.segId = id) :
    (∃ r, processObject F G intr M px id = .ok r) ↔
      10 ≤ (reconstructCloud intr px id).length ∧
      ∃ fc, F (reconstructCloud intr px id) = .ok fc ∧ fc ≠ [] := by
  have hmask : ¬ ∀ p ∈ px, p.segId ≠ id := by
    rcases hm with ⟨p, hp, he⟩
    exact fun hall => hall p hp he
  unfold processObject
  rw [if_neg hmask]
  split
  · rename_i hlt
    constructor
    · rintro ⟨r, hr⟩; exact absurd hr (by simp)
    · rintro ⟨hle, _⟩; omega
  · rename_i hlt
    split
    · rename_i e hF
      constructor
      · rintro ⟨r, hr⟩; exact absurd hr (by simp)
      · rintro ⟨h10, fc, hfc, hne⟩
        rw [hF] at hfc
        exact absurd hfc (by simp)
    · rename_i fc hF
      split
      · rename_i hz
        constructor
        · rintro ⟨r, hr⟩; exact absurd hr (by simp)
        · rintro ⟨h10, fc2, hfc2, hne⟩
          rw [hF] at hfc2
          simp only [Except.ok.injEq] at hfc2
          subst hfc2
          exact (hne (List.length_eq_zero.1 hz)).elim
      · rename_i hz
        constructor
        · rintro ⟨r, hr⟩
          exact ⟨by omega, fc, hF, fun hnil => hz (by simp [hnil])⟩
        · rintro _
          rcases hG : G fc with e | obb
          · exact ⟨_, rfl⟩
          · exact ⟨_, rfl⟩

lemma not_all_ne_of_mem (px : List Pixel) (id : ℤ) (hm : ∃ p ∈ px, p.segId = id) :
    ¬ ∀ p ∈ px, p.segId ≠ id := by
  rcases hm with ⟨p, hp, he⟩
  exact fun hall => hall p hp he

lemma processObject_past_filter (F : Cloud → Except Unit Cloud)
    (G : Cloud → Except Unit OBB) (intr : Intrinsics) (M : Mat4)
    (px : List Pixel) (id : ℤ) (fc : Cloud)
    (hmask : ¬ ∀ p ∈ px, p.segId ≠ id)
    (hlen : ¬ (reconstructCloud intr px id).length < 10)
    (hfc : F (reconstructCloud intr px id) = .ok fc)
    (hne : ¬ fc.length = 0) :
    processObject F G intr M px id =
      match G fc with
      | .ok obb =>
          .ok { position_camera := centroidOf fc,
                orientation_camera := obb.R,
                position_world := transformPos M (centroidOf fc),
                orientation_world := rot3 M * obb.R,
                dimensions := some obb.extent }
      | .error _ =>
          .ok { position_camera := centroidOf fc,
                position_world := transformPos M (centroidOf fc),
                orientation_camera := 1,
                orientation_world := rot3 M * 1,
                dimensions := none } := by
  unfold processObject
  rw [if_neg hmask, if_neg hlen, hfc]
  exact if_neg hne

lemma invert4_of_det_eq_zero (A : Mat4) (h : A.det = 0) : invert4 A = none := by
  rw [invert4, if_pos h]

lemma invert4_one : invert4 (1 : Mat4) = some 1 := by
  rw [invert4, if_neg (by simp), Matrix.adjugate_one, Matrix.det_one]
  simp

lemma rot3_one : rot3 (1 : Mat4) = (1 : Mat3) := by
  funext i j
  simp [rot3, Matrix.one_apply, Fin.castSucc_inj]

lemma length_cloud_frameTen : (reconstructCloud intrEx frameTen 5).length = 10 := by
  norm_num [reconstructCloud, backproject, removeOrigin, maskPixel,
    backprojectPoint, depthTrunc, frameTen, pxObj, pxBg, intrEx, List.filter]

lemma length_cloud_frameFour : (reconstructCloud intrEx frameFour 5).length = 4 := by
  norm_num [reconstructCloud, backproject, removeOrigin, maskPixel,
    backprojectPoint, depthTrunc, frameFour, pxObj, pxBg, intrEx, List.filter]

/-- C1 (amended): the key set of a Frame Result consists of exactly the
positive ids present in the segmentation whose reconstructed cloud
reaches the 10-point threshold AND whose filtering step succeeds with a
non-empty cloud. -/
theorem frame_result_keys_exact (F : Cloud → Except Unit Cloud)
    (G : Cloud → Except Unit OBB) (intr : Intrinsics) (M : Mat4)
    (px : List Pixel) (id : ℤ) :
    id ∈ recordKeys (objectRecords F G intr M px) ↔
      0 < id ∧ (∃ p ∈ px, p.segId = id) ∧
      10 ≤ (reconstructCloud intr px id).length ∧
      ∃ fc, F (reconstructCloud intr px id) = .ok fc ∧ fc ≠ [] := by
  rw [mem_recordKeys_iff, mem_uniqueIds_iff]
  constructor
  · rintro ⟨hm, hpos, hex⟩
    exact ⟨hpos, hm, (processObject_ok_exists_iff F G intr M px id hm).1 hex⟩
  · rintro ⟨hpos, hm, h10, hfc⟩
    exact ⟨hm, hpos, (processObject_ok_exists_iff F G intr M px id hm).2 ⟨h10, hfc⟩⟩

/-- C1 counterexample: object id 5 passes the 10-point threshold in this
frame, yet it has no record because the filtering step fails, so the key
set is not exactly the set of threshold passers. -/
theorem frame_result_keys_cex :
    10 ≤ (reconstructCloud intrEx frameTen 5).length ∧ (0 : ℤ) < 5 ∧
      (∃ p ∈ frameTen, p.segId = 5) ∧
      5 ∉ recordKeys (objectRecords failFilter okOBB intrEx 1 frameTen) := by
  have hmask : ¬ ∀ p ∈ frameTen, p.segId ≠ (5 : ℤ) :=
    not_all_ne_of_mem frameTen 5 ⟨pxObj 0, by simp [frameTen], rfl⟩
  have herr : processObject failFilter okOBB intrEx 1 frameTen 5 =
      .error .filterFailed := by
    unfold processObject
    rw [if_neg hmask, if_neg (by simp [length_cloud_frameTen])]
    rfl
  refine ⟨by simp [length_cloud_frameTen], by norm_num,
    ⟨pxObj 0, by simp [frameTen], rfl⟩, fun hk => ?_⟩
  rcases (mem_recordKeys_iff failFilter okOBB intrEx 1 frameTen 5).1 hk with
    ⟨_, _, r, hr⟩
  rw [herr] at hr
  exact absurd hr (by simp)

/-- C2 (amended): a frame whose view matrix is singular makes the
uncaught inversion failure abort the whole run: no frame result is
produced for that frame or any later one. -/
theorem singular_view_aborts_run (F : Cloud → Except Unit Cloud)
    (G : Cloud → Except Unit OBB) (intr : Intrinsics) (V : Mat4)
    (px : List Pixel) (rest : List (Mat4 × List Pixel)) (h : V.det = 0) :
    runFrames F G intr ((V, px) :: rest) = .error .singularViewMatrix := by
  have hinv : invert4 V = none := invert4_of_det_eq_zero V h
  simp [runFrames, processFrame, hinv]

theorem singular_view_aborts_run_witness :
    runFrames idFilter okOBB intrEx [((0 : Mat4), frameFour)] =
      .error .singularViewMatrix :=
  singular_view_aborts_run idFilter okOBB intrEx 0 frameFour [] (by simp)

/-- C2 counterexample: with a singular first frame followed by a
perfectly processable second frame, the run returns no results at all -
the second frame is never processed, so the run does not continue. -/
theorem singular_view_cex :
    runFrames idFilter okOBB intrEx
        [((0 : Mat4), frameTen), ((1 : Mat4), frameTen)] =
      .error .singularViewMatrix ∧
    (processFrame idFilter okOBB intrEx ((1 : Mat4), frameTen)).toOption.isSome
      = true := by
  have h0 : invert4 (0 : Mat4) = none := invert4_of_det_eq_zero 0 (by simp)
  constructor
  · simp [runFrames, processFrame, h0]
  · simp [processFrame, invert4_one, Except.toOption]

/-- C3: an object whose reconstructed cloud (after origin removal) has
fewer than 10 points is skipped with the insufficient-points signal and
gets no record in the Frame Result. -/
theorem insufficient_points_skip (F : Cloud → Except Unit Cloud)
    (G : Cloud → Except Unit OBB) (intr : Intrinsics) (M : Mat4)
    (px : List Pixel) (id : ℤ) (hm : ∃ p ∈ px, p.segId = id)
    (hlen : (reconstructCloud intr px id).length < 10) :
    processObject F G intr M px id = .error .insufficientPoints ∧
      id ∉ recordKeys (objectRecords F G intr M px) := by
  have h1 : processObject F G intr M px id = .error .insufficientPoints := by
    unfold processObject
    rw [if_neg (not_all_ne_of_mem px id hm), if_pos hlen]
  refine ⟨h1, fun hk => ?_⟩
  rcases (mem_recordKeys_iff F G intr M px id).1 hk with ⟨_, _, r, hr⟩
  rw [h1] at hr
  exact absurd hr (by simp)

theorem insufficient_points_skip_witness :
    processObject idFilter okOBB intrEx 1 frameFour 5 =
        .error .insufficientPoints ∧
      (5 : ℤ) ∉ recordKeys (objectRecords idFilter okOBB intrEx 1 frameFour) :=
  insufficient_points_skip idFilter okOBB intrEx 1 frameFour 5
    ⟨pxObj 0, by simp [frameFour], rfl⟩
    (by simp [length_cloud_frameFour])

/-- C4: when OBB fitting fails on a non-empty filtered cloud, the
pipeline does not raise: it emits the fallback record with identity
camera orientation and absent dimensions, the centroid positions being
computed independently of the OBB. -/
theorem obb_failure_fallback (F : Cloud → Except Unit Cloud)
    (G : Cloud → Except Unit OBB) (intr : Intrinsics) (M : Mat4)
    (px : List Pixel) (id : ℤ) (fc : Cloud) (e : Unit)
    (hm : ∃ p ∈ px, p.segId = id)
    (hlen : 10 ≤ (reconstructCloud intr px id).length)
    (hfc : F (reconstructCloud intr px id) = .ok fc)
    (hne : fc ≠ [])
    (hobb : G fc = .error e) :
    processObject F G intr M px id =
      .ok { position_camera := centroidOf fc,
            position_world := transformPos M (centroidOf fc),
            orientation_camera := 1,
            orientation_world := rot3 M * 1,
            dimensions := none } := by
  rw [processObject_past_filter F G intr M px id fc
    (not_all_ne_of_mem px id hm) (by omega) hfc
    (fun h => hne (List.length_eq_zero.1 h)), hobb]

theorem obb_failure_fallback_witness :
    processObject idFilter failOBB intrEx 1 frameTen 5 =
      .ok { position_camera := centroidOf (reconstructCloud intrEx frameTen 5),
            position_world :=
              transformPos 1 (centroidOf (reconstructCloud intrEx frameTen 5)),
            orientation_camera := 1,
            orientation_world := rot3 1 * 1,
            dimensions := none } :=
  obb_failure_fallback idFilter failOBB intrEx 1 frameTen 5
    (reconstructCloud intrEx frameTen 5) ()
    ⟨pxObj 0, by simp [frameTen], rfl⟩
    (by simp [length_cloud_frameTen])
    rfl
    (by intro h; have hl := length_cloud_frameTen; rw [h] at hl; exact absurd hl (by norm_num))
    rfl

/-- C5: every emitted record's world-frame fields satisfy the
homogeneous-transform and rotation-block formulas, and the per-point
world transform of the visualization cloud is the same homogeneous
formula applied pointwise. -/
theorem world_transform_formulas (F : Cloud → Except Unit Cloud)
    (G : Cloud → Except Unit OBB) (intr : Intrinsics) (M : Mat4)
    (px : List Pixel) (id : ℤ) (r : PoseRecord)
    (hr : processObject F G intr M px id = .ok r) :
    r.position_world = specWorldPos M r.position_camera ∧
      r.orientation_world = specWorldRot M r.orientation_camera ∧
      ∀ pts, worldPoints M pts = pts.map (specWorldPos M) := by
  rcases processObject_ok_elim F G intr M px id r hr with
    ⟨fc, hfc, hne, hpc, hpw, how, hdim⟩
  refine ⟨?_, ?_, fun pts => ?_⟩
  · rw [hpw, hpc, transformPos_eq_specWorldPos]
  · rw [how, rot3_mul_eq_specWorldRot]
  · simp only [worldPoints]
    exact List.map_congr_left fun q _ => transformPos_eq_specWorldPos M q

lemma processObject_eval_ok :
    processObject idFilter okOBB intrEx 1 frameTen 5 = .ok recEx := by
  rw [processObject_past_filter idFilter okOBB intrEx 1 frameTen 5
    (reconstructCloud intrEx frameTen 5)
    (not_all_ne_of_mem frameTen 5 ⟨pxObj 0, by simp [frameTen], rfl⟩)
    (by simp [length_cloud_frameTen]) rfl
    (by simp [length_cloud_frameTen])]
  rfl

theorem world_transform_formulas_witness :
    recEx.position_world = specWorldPos 1 recEx.position_camera ∧
      recEx.orientation_world = specWorldRot 1 recEx.orientation_camera ∧
      worldPoints 1 [![1, 2, 3]] = [![1, 2, 3]].map (specWorldPos 1) :=
  ⟨(world_transform_formulas idFilter okOBB intrEx 1 frameTen 5 recEx
      processObject_eval_ok).1,
   (world_transform_formulas idFilter okOBB intrEx 1 frameTen 5 recEx
      processObject_eval_ok).2.1,
   (world_transform_formulas idFilter okOBB intrEx 1 frameTen 5 recEx
      processObject_eval_ok).2.2 [![1, 2, 3]]⟩

/-- C6: camera-to-world via the inverted view matrix followed by the
forward homogeneous transform through the view matrix itself returns the
original camera-frame point exactly, for any rigid view matrix. -/
theorem camera_world_round_trip (V M : Mat4) (hV : IsRigid V)
    (hinv : invert4 V = some M) (p : Vec3) :
    transformPos V (transformPos M p) = p := by
  obtain ⟨hVM, hMV⟩ := invert4_mul V M hinv
  have hMrow : ∀ j, M (Fin.last 3) j = if j = Fin.last 3 then 1 else 0 := by
    intro j
    have h1 : (V * M) (Fin.last 3) j = (1 : Mat4) (Fin.last 3) j := by rw [hVM]
    rw [Matrix.mul_apply] at h1
    have h2 : ∀ k, V (Fin.last 3) k * M k j =
        if k = Fin.last 3 then M k j else 0 := by
      intro k
      rw [hV.1 k]
      by_cases hk : k = Fin.last 3 <;> simp [hk]
    rw [Finset.sum_congr rfl (fun k _ => h2 k),
      Finset.sum_ite_eq' Finset.univ (Fin.last 3) (fun k => M k j)] at h1
    simp only [Finset.mem_univ, if_true] at h1
    rw [h1, Matrix.one_apply]
    by_cases hj : j = Fin.last 3 <;> simp [hj, eq_comm]
  have hhom : homog (transformPos M p) = M.mulVec (homog p) := by
    funext i
    refine Fin.lastCases ?_ (fun j => ?_) i
    · rw [homog_last, Matrix.mulVec, Matrix.dotProduct]
      have h2 : ∀ k, M (Fin.last 3) k * homog p k =
          if k = Fin.last 3 then homog p k else 0 := by
        intro k
        rw [hMrow k]
        by_cases hk : k = Fin.last 3 <;> simp [hk]
      rw [Finset.sum_congr rfl (fun k _ => h2 k),
        Finset.sum_ite_eq' Finset.univ (Fin.last 3) (fun k => homog p k)]
      simp [homog_last]
    · rw [homog_castSucc]
      rfl
  funext i
  show (V.mulVec (homog (transformPos M p))) (Fin.castSucc i) = p i
  rw [hhom, Matrix.mulVec_mulVec, hVM, Matrix.one_mulVec, homog_castSucc]

lemma isRigid_one : IsRigid (1 : Mat4) := by
  constructor
  · intro j
    rw [Matrix.one_apply]
    by_cases hj : j = Fin.last 3 <;> simp [hj, eq_comm]
  · rw [rot3_one, Matrix.transpose_one, one_mul]

theorem camera_world_round_trip_witness :
    transformPos 1 (transformPos 1 ![1, 2, 3]) = ![1, 2, 3] :=
  camera_world_round_trip 1 1 isRigid_one invert4_one ![1, 2, 3]

/-- C7: for a pixel of the frame, being foreground (id greater than 0)
is equivalent to lying in the mask of some retained object id, and the
masks of two distinct ids are disjoint. -/
theorem masks_partition_foreground (px : List Pixel) (p : Pixel) (hp : p ∈ px) :
    (0 < p.segId ↔ ∃ id ∈ objectIds px, inMask id p) ∧
      ∀ i j : ℤ, i ≠ j → ¬ (inMask i p ∧ inMask j p) := by
  constructor
  · constructor
    · intro hpos
      refine ⟨p.segId, ?_, rfl⟩
      rw [objectIds, List.mem_filter]
      refine ⟨(mem_uniqueIds_iff px p.segId).2 ⟨p, hp, rfl⟩, by simpa using hpos⟩
    · rintro ⟨id, hid, hmask⟩
      rw [objectIds, List.mem_filter] at hid
      have hpos : 0 < id := by simpa using hid.2
      rw [inMask] at hmask
      omega
  · rintro i j hne ⟨h1, h2⟩
    rw [inMask] at h1 h2
    exact hne (by omega)

theorem masks_partition_foreground_witness :
    ((0 : ℤ) < (pxObj 0).segId ↔ ∃ id ∈ objectIds frameTen, inMask id (pxObj 0)) ∧
      ∀ i j : ℤ, i ≠ j → ¬ (inMask i (pxObj 0) ∧ inMask j (pxObj 0)) :=
  masks_partition_foreground frameTen (pxObj 0) (by simp [frameTen])

/-- C8: the Intrinsics Builder is a pure extraction: it returns exactly
the four matrix entries at (0,0), (1,1), (0,2), (1,2) together with the
fixed 640x480 render resolution, and it depends on nothing else of the
projection matrix. -/
theorem intrinsics_pure_extraction (P : Mat4) :
    buildIntrinsics P =
        { width := 640, height := 480,
          fx := P 0 0, fy := P 1 1, cx := P 0 2, cy := P 1 2 } ∧
      ∀ Q : Mat4, P 0 0 = Q 0 0 → P 1 1 = Q 1 1 → P 0 2 = Q 0 2 →
        P 1 2 = Q 1 2 → buildIntrinsics P = buildIntrinsics Q := by
  refine ⟨rfl, fun Q h1 h2 h3 h4 => ?_⟩
  simp [buildIntrinsics, h1, h2, h3, h4]

theorem intrinsics_pure_extraction_witness :
    buildIntrinsics (1 : Mat4) =
        { width := 640, height := 480,
          fx := (1 : Mat4) 0 0, fy := (1 : Mat4) 1 1, cx := (1 : Mat4) 0 2,
          cy := (1 : Mat4) 1 2 } ∧
      buildIntrinsics (1 : Mat4) = buildIntrinsics (1 : Mat4) :=
  ⟨(intrinsics_pure_extraction 1).1,
   (intrinsics_pure_extraction 1).2 1 rfl rfl rfl rfl⟩

/-- C9: when filtering succeeds but leaves an empty cloud, the object is
dropped through the silent length guard (the one skip path the code does
not log) and gets no record in the Frame Result. -/
theorem empty_filtered_cloud_silent_skip (F : Cloud → Except Unit Cloud)
    (G : Cloud → Except Unit OBB) (intr : Intrinsics) (M : Mat4)
    (px : List Pixel) (id : ℤ) (hm : ∃ p ∈ px, p.segId = id)
    (hlen : 10 ≤ (reconstructCloud intr px id).length)
    (hf : F (reconstructCloud intr px id) = .ok []) :
    processObject F G intr M px id = .error .emptyAfterFilter ∧
      id ∉ recordKeys (objectRecords F G intr M px) := by
  have h1 : processObject F G intr M px id = .error .emptyAfterFilter := by
    unfold processObject
    rw [if_neg (not_all_ne_of_mem px id hm), if_neg (by omega), hf]
    rfl
  refine ⟨h1, fun hk => ?_⟩
  rcases (mem_recordKeys_iff F G intr M px id).1 hk with ⟨_, _, r, hr⟩
  rw [h1] at hr
  exact absurd hr (by simp)

theorem empty_filtered_cloud_silent_skip_witness :
    processObject emptyFilter okOBB intrEx 1 frameTen 5 =
        .error .emptyAfterFilter ∧
      (5 : ℤ) ∉ recordKeys (objectRecords emptyFilter okOBB intrEx 1 frameTen) :=
  empty_filtered_cloud_silent_skip emptyFilter okOBB intrEx 1 frameTen 5
    ⟨pxObj 0, by simp [frameTen], rfl⟩
    (by simp [length_cloud_frameTen])
    rfl

lemma processObject_eval_fallback :
    processObject idFilter failOBB intrEx 1 frameTen 5 = .ok recFb := by
  rw [processObject_past_filter idFilter failOBB intrEx 1 frameTen 5
    (reconstructCloud intrEx frameTen 5)
    (not_all_ne_of_mem frameTen 5 ⟨pxObj 0, by simp [frameTen], rfl⟩)
    (by simp [length_cloud_frameTen]) rfl
    (by simp [length_cloud_frameTen])]
  rfl

/-- C10: every emitted record carries all four pose fields by
construction; its world orientation always equals the 3x3 block of the
inverse view matrix times its camera orientation, and whenever the
dimensions are absent (the OBB fallback) the camera orientation is the
identity. -/
theorem record_orientation_invariant (F : Cloud → Except Unit Cloud)
    (G : Cloud → Except Unit OBB) (intr : Intrinsics) (M : Mat4)
    (px : List Pixel) (id : ℤ) (r : PoseRecord)
    (hr : processObject F G intr M px id = .ok r) :
    r.orientation_world = rot3 M * r.orientation_camera ∧
      (r.dimensions = none → r.orientation_camera = 1) := by
  rcases processObject_ok_elim F G intr M px id r hr with
    ⟨fc, hfc, hne, hpc, hpw, how, hdim⟩
  exact ⟨how, hdim⟩

theorem record_orientation_invariant_witness :
    recFb.orientation_world = rot3 1 * recFb.orientation_camera ∧
      recFb.orientation_camera = 1 :=
  ⟨(record_orientation_invariant idFilter failOBB intrEx 1 frameTen 5 recFb
      processObject_eval_fallback).1,
   (record_orientation_invariant idFilter failOBB intrEx 1 frameTen 5 recFb
      processObject_eval_fallback).2 rfl⟩
